import Mathlib

/-!
Shallow embedding of the server core of the V4T54L/mafia repository
(room registry, game runtime, voice routing derivation, router error
mapping), together with theorems settling the specification claims.

Conventions used throughout the embedding:

* Go `map[string]T` values are embedded as association lists
  `List (String × T)`; insertion replaces the binding of an existing key
  and otherwise appends, so the list order records insertion order.
  Where the Go code *iterates* over a map, the iteration order is
  unspecified in Go; whenever a claim can depend on it, the embedded
  function takes the iteration order as an explicit parameter.
* Go strings used as "id or empty" sentinels are kept as `String`,
  with `""` playing the role of the empty sentinel, exactly as the
  source compares against `""`.
* Go `time.Time` is embedded as `Nat` (seconds); `time.Now().After(t)`
  is strict `>` on these values.
* Go integer loop counts from `GameSettings` are embedded as `Nat`
  (a Go `for i := 0; i < n; i++` loop with non-positive `n` runs zero
  times, matching `Nat`).
-/

namespace Mafia

/-- `Role` from internal/domain/entity/role.go. The Go zero value `""`
of the string-typed `Role` is represented by `Option Role = none` at
lookup sites. -/
inductive Role where
| villager
| mafia
| godfather
| doctor
| detective
deriving DecidableEq, Repr, Inhabited

/-- `Team` from internal/domain/entity/role.go -/
inductive Team where
| town
| mafia
deriving DecidableEq, Repr, Inhabited

/-- `Role.GetTeam` from role.go: mafia and godfather are team Mafia,
everything else (including the zero value) is town. -/
def Role.getTeam : Role → Team
| .mafia => .mafia
| .godfather => .mafia
| _ => .town

/-- `GetTeam` applied to a map lookup result: a missing key yields the
zero `Role` `""`, whose `GetTeam` is the `default` branch, town. -/
def teamOfLookup : Option Role → Team
| some r => r.getTeam
| none => .town

/-- `Role.CanActAtNight` from role.go -/
def Role.canActAtNight : Role → Bool
| .mafia => true
| .godfather => true
| .doctor => true
| .detective => true
| _ => false

/-- `CanActAtNight` applied to a map lookup result (missing key = zero
`Role`, which cannot act). -/
def canActOfLookup : Option Role → Bool
| some r => r.canActAtNight
| none => false

/-- `PlayerStatus` from role.go -/
inductive PlayerStatus where
| alive
| dead
deriving DecidableEq, Repr, Inhabited

/-- `Player` from role.go (current snapshot, with `IsConnected`). The
`Role` field assigned at game start is tracked in `Game.roles`; the
claims never read the copy stored on the player, so it is omitted
here. -/
structure Player where
  id : String
  nickname : String
  isHost : Bool
  isReady : Bool
  isConnected : Bool
  status : PlayerStatus
deriving DecidableEq, Repr, Inhabited

/-- `NewPlayer` from role.go -/
def newPlayer (id nickname : String) (isHost : Bool) : Player :=
  { id := id
    nickname := nickname
    isHost := isHost
    isReady := false
    isConnected := true
    status := .alive }

/-- `GameSettings` from part of entity (room file) -/
structure GameSettings where
  villagers : Nat
  mafia : Nat
  godfather : Nat
  doctor : Nat
  detective : Nat
  nightTimer : Nat
deriving DecidableEq, Repr, Inhabited

/-- `DefaultSettings` -/
def defaultSettings : GameSettings :=
  { villagers := 3, mafia := 2, godfather := 0, doctor := 1,
    detective := 1, nightTimer := 60 }

/-- `GameSettings.TotalPlayers` -/
def GameSettings.totalPlayers (s : GameSettings) : Nat :=
  s.villagers + s.mafia + s.godfather + s.doctor + s.detective

/-- `RoomState` -/
inductive RoomState where
| waiting
| playing
| ended
deriving DecidableEq, Repr, Inhabited

/-- Domain errors from entity (room and game files). -/
inductive DomainError where
| roomFull
| roomNotFound
| wrongPassword
| playerNotFound
| gameAlreadyStarted
| notEnoughPlayers
| notAllReady
| notHost
| nicknameInUse
| gameNotStarted
| invalidPhase
| playerDead
| invalidTarget
| cannotTargetSelf
| mafiaTargetMafia
deriving DecidableEq, Repr

def MinPlayers : Nat := 6
def MaxPlayers : Nat := 12

/-- `Room` from the entity room file. The Go `Players map[string]*Player`
is embedded as the list of its values; lookup is by the `id` field.
`PlayerOrder` is kept verbatim. -/
structure Room where
  code : String
  passwordHash : String
  state : RoomState
  settings : GameSettings
  players : List Player
  playerOrder : List String
deriving DecidableEq, Repr, Inhabited

/-- `NewRoom` -/
def newRoom (code passwordHash : String) : Room :=
  { code := code
    passwordHash := passwordHash
    state := .waiting
    settings := defaultSettings
    players := []
    playerOrder := [] }

/-- Go map assignment `r.Players[p.ID] = p`: replace the binding of an
existing key, otherwise add. -/
def mapInsertPlayer (players : List Player) (p : Player) : List Player :=
  if players.any (fun q => q.id = p.id) then
    players.map (fun q => if q.id = p.id then p else q)
  else
    players ++ [p]

/-- `Room.GetPlayer`: Go map lookup by id (`nil` for a missing key). -/
def Room.getPlayer (r : Room) (playerID : String) : Option Player :=
  r.players.find? (fun p => p.id = playerID)

/-- `Room.AddPlayer` from the entity room file: capacity check, state
check, nickname uniqueness, first player becomes host, then map insert
and append to `PlayerOrder`. -/
def Room.addPlayer (r : Room) (player : Player) : Except DomainError Room :=
  if r.players.length ≥ MaxPlayers then
    .error .roomFull
  else if r.state ≠ RoomState.waiting then
    .error .gameAlreadyStarted
  else if r.players.any (fun p => p.nickname = player.nickname) then
    .error .nicknameInUse
  else
    let player := if r.players.length = 0 then { player with isHost := true } else player
    .ok { r with
          players := mapInsertPlayer r.players player
          playerOrder := r.playerOrder ++ [player.id] }

/-- Remove the first occurrence of `x` from a list (the `PlayerOrder`
removal loop breaks after the first match). -/
def eraseFirst (l : List String) (x : String) : List String :=
  match l with
  | [] => []
  | y :: ys => if y = x then ys else y :: eraseFirst ys x

/-- `Room.RemovePlayer`: delete from the player map and `PlayerOrder`;
if the departing player was host and players remain, promote
`PlayerOrder[0]` and return it as the new host id (`""` otherwise).
Returns the removed player, the new host id and the updated room
(`none` when the id is not present, in which case Go returns
`nil, ""` and leaves the room unchanged). -/
def Room.removePlayer (r : Room) (playerID : String) :
    Option Player × String × Room :=
  match r.players.find? (fun p => p.id = playerID) with
  | none => (none, "", r)
  | some player =>
    let players1 := r.players.filter (fun p => p.id ≠ playerID)
    let order1 := eraseFirst r.playerOrder playerID
    if player.isHost ∧ players1.length > 0 then
      let newHostID := order1.headD ""
      let players2 := players1.map
        (fun q => if q.id = newHostID then { q with isHost := true } else q)
      (some player, newHostID,
        { r with players := players2, playerOrder := order1 })
    else
      (some player, "", { r with players := players1, playerOrder := order1 })

/-- `Room.GetHost`: the Go loop over the players map returns a player
with `IsHost` set; embedded as the first such player in the list. -/
def Room.getHost (r : Room) : Option Player :=
  r.players.find? (fun p => p.isHost)

/-- `Room.SetReady` -/
def Room.setReady (r : Room) (playerID : String) (ready : Bool) :
    Except DomainError Room :=
  match r.players.find? (fun p => p.id = playerID) with
  | none => .error .playerNotFound
  | some _ =>
    .ok { r with players :=
      r.players.map (fun p => if p.id = playerID then { p with isReady := ready } else p) }

/-- `Room.AllReady`: false when below `MinPlayers`, else every player is
ready. -/
def Room.allReady (r : Room) : Bool :=
  if r.players.length < MinPlayers then false
  else r.players.all (fun p => p.isReady)

/-- `Room.PlayerCount` -/
def Room.playerCount (r : Room) : Nat := r.players.length

/-! ## Game entity (internal/domain/entity/game.go) -/

/-- `GamePhase` -/
inductive GamePhase where
| roleReveal
| night
| nightResult
| day
| dayResult
| gameOver
deriving DecidableEq, Repr, Inhabited

/-- Go map assignment on a `map[string]V` embedded as an association
list: replace the binding of an existing key, otherwise append, so the
list order is insertion order. -/
def mapInsert {β : Type} (m : List (String × β)) (k : String) (v : β) :
    List (String × β) :=
  if m.any (fun kv => kv.1 = k) then
    m.map (fun kv => if kv.1 = k then (k, v) else kv)
  else
    m ++ [(k, v)]

/-- Association list lookup (Go map read; `none` for a missing key). -/
def lookupAssoc {β : Type} (m : List (String × β)) (k : String) : Option β :=
  (m.find? (fun kv => kv.1 = k)).map (fun kv => kv.2)

/-- `NightActions` from game.go: the collective `MafiaTarget`, the
per-mafia vote map, and the doctor/detective targets (`""` = unset). -/
structure NightActions where
  mafiaTarget : String
  mafiaVotes : List (String × String)
  doctorTarget : String
  detectiveTarget : String
deriving DecidableEq, Repr, Inhabited

/-- `DayVotes` from game.go. The `VotedTime` map is written on every
vote but never read anywhere in the source, so it is omitted from the
embedding; `Submitted` keeps its `map[string]bool` values. -/
structure DayVotes where
  votes : List (String × String)
  submitted : List (String × Bool)
deriving DecidableEq, Repr, Inhabited

/-- `DetectiveResult` from game.go -/
structure DetectiveResult where
  targetID : String
  targetNickname : String
  isMafia : Bool
deriving DecidableEq, Repr, Inhabited

/-- `NightResult` from game.go -/
structure NightResult where
  killedID : String
  killedNickname : String
  wasSaved : Bool
  detectiveResult : Option DetectiveResult
deriving DecidableEq, Repr, Inhabited

/-- `DayResult` from game.go (`EliminatedRole` zero value `""` is
`none`). -/
structure DayResult where
  eliminatedID : String
  eliminatedNickname : String
  eliminatedRole : Option Role
  voteCounts : List (String × Nat)
  noMajority : Bool
deriving DecidableEq, Repr, Inhabited

/-- `Game` from game.go. `PhaseEndTime` (wall-clock) is not part of the
embedded state; the timer claims are settled on the pure completeness
predicates that gate early resolution. `Winner` zero value `""` is
`none`. -/
structure Game where
  room : Room
  phase : GamePhase
  round : Nat
  roles : List (String × Role)
  nightActions : NightActions
  dayVotes : DayVotes
  lastNightResult : Option NightResult
  lastDayResult : Option DayResult
  winner : Option Team
deriving DecidableEq, Repr, Inhabited

/-- Go read `g.Roles[playerID]` (missing key = zero `Role` = `none`). -/
def Game.roleOf (g : Game) (playerID : String) : Option Role :=
  (g.roles.find? (fun kv => kv.1 = playerID)).map (fun kv => kv.2)

/-- The role pool built by `assignRoles` before shuffling: one entry
per configured mafia, godfather, doctor and detective, then the
remaining player slots (if any) filled with villagers. Go's
`villagerCount := len(playerIDs) - len(roles)` loop runs zero times
when negative, which is exactly truncated `Nat` subtraction. -/
def rolePool (settings : GameSettings) (numPlayers : Nat) : List Role :=
  let special :=
    List.replicate settings.mafia Role.mafia ++
    List.replicate settings.godfather Role.godfather ++
    List.replicate settings.doctor Role.doctor ++
    List.replicate settings.detective Role.detective
  special ++ List.replicate (numPlayers - special.length) Role.villager

/-- `playerIDs` as collected by `assignRoles`: `PlayerOrder` entries
that are present in the players map. -/
def Room.playerIDs (r : Room) : List String :=
  r.playerOrder.filter (fun id => r.players.any (fun p => p.id = id))

/-- `NewGame` + `assignRoles` from game.go. `rand.Shuffle` is embedded
as an explicit `shuffle` parameter (theorems quantify over it or
instantiate it with the identity); assignment pairs `playerIDs[i]`
with `roles[i]`. `assignRoles` never returns an error; the only
checks are the minimum player count and `AllReady`. Sets
`room.State = playing` and starts in `role_reveal` with `Round = 1`. -/
def newGame (room : Room) (shuffle : List Role → List Role) :
    Except DomainError Game :=
  if room.playerCount < MinPlayers then
    .error .notEnoughPlayers
  else if ¬ room.allReady then
    .error .notAllReady
  else
    let ids := room.playerIDs
    let roles := shuffle (rolePool room.settings ids.length)
    .ok { room := { room with state := .playing }
          phase := .roleReveal
          round := 1
          roles := ids.zip roles
          nightActions := ⟨"", [], "", ""⟩
          dayVotes := ⟨[], []⟩
          lastNightResult := none
          lastDayResult := none
          winner := none }

/-- `GameService.StartGame` (domain part): resolves the room (the
registry lookup by code is elided — the claim quantifies over the
room), verifies the caller is the host, then `NewGame`. -/
def startGame (room : Room) (hostPlayerID : String)
    (shuffle : List Role → List Role) : Except DomainError Game :=
  match room.getHost with
  | none => .error .notHost
  | some host =>
    if host.id ≠ hostPlayerID then .error .notHost
    else newGame room shuffle

/-- `Game.StartNight`: enter night phase and reset `NightActions`
(`PhaseEndTime` elided). -/
def Game.startNight (g : Game) : Game :=
  { g with phase := .night, nightActions := ⟨"", [], "", ""⟩ }

/-- `GameService.transitionToNight` (state part): `StartNight` followed
by `game.Round++`. -/
def transitionToNight (g : Game) : Game :=
  let g := g.startNight
  { g with round := g.round + 1 }

/-- The `godfatherVote` variable of `resolveMafiaTarget`: scanning the
vote map, every non-empty vote cast by a godfather overwrites it (the
scan order only matters when several godfathers exist; the claims
involve at most one). -/
def godfatherVote (roles : List (String × Role))
    (votes : List (String × String)) : String :=
  votes.foldl
    (fun acc kv =>
      if kv.2 = "" then acc
      else if (roles.find? (fun rk => rk.1 = kv.1)).map (fun rk => rk.2)
              = some Role.godfather then kv.2
      else acc)
    ""

/-- `voteCounts[t]` as built by `resolveMafiaTarget`: the number of
non-empty votes for `t`. -/
def voteCount (votes : List (String × String)) (t : String) : Nat :=
  if t = "" then 0 else (votes.filter (fun kv => kv.2 = t)).length

/-- The distinct non-empty targets of the vote map — the key set of
`voteCounts` — in first-appearance order. -/
def distinctTargets (votes : List (String × String)) : List String :=
  ((votes.filter (fun kv => kv.2 ≠ "")).map (fun kv => kv.2)).dedup

/-- The max-selection loop of `resolveMafiaTarget`
(`for target, count := range voteCounts`), with the state
`(maxVotes, MafiaTarget)` threaded explicitly: an entry updates the
state only when its count is strictly greater than the running max. -/
def maxLoop (f : String → Nat) (l : List String) (acc : Nat × String) :
    Nat × String :=
  match l with
  | [] => acc
  | t :: ts => maxLoop f ts (if f t > acc.1 then (f t, t) else acc)

/-- `Game.resolveMafiaTarget`, with the iteration order of the
`voteCounts` map made explicit: `countsIter` is the order in which the
max-selection loop visits the targets. Go map iteration order is
unspecified, so theorems either quantify over every `countsIter` that
enumerates `distinctTargets votes`, or exhibit a specific one. The
previous `MafiaTarget` is kept when the loop never fires (`maxVotes`
starts at 0 and only strictly greater counts update it). -/
def resolveMafiaTargetWith (roles : List (String × Role))
    (votes : List (String × String)) (countsIter : List String)
    (prev : String) : String :=
  let gf := godfatherVote roles votes
  if gf ≠ "" then gf
  else (maxLoop (voteCount votes) countsIter (0, prev)).2

/-- The determinization of `resolveMafiaTarget` used inside
`submitNightAction` (first-appearance order); any enumeration of
`distinctTargets` is a possible behaviour of the Go code. -/
def resolveMafiaTarget (roles : List (String × Role))
    (votes : List (String × String)) (prev : String) : String :=
  resolveMafiaTargetWith roles votes (distinctTargets votes) prev

/-- The `switch role` recording block at the end of
`Game.SubmitNightAction`: mafia/godfather votes go into `MafiaVotes`
followed by `resolveMafiaTarget`, doctor/detective targets are stored
directly (also when empty). -/
def Game.recordNightAction (g : Game) (role : Option Role)
    (playerID targetID : String) : Game :=
  if role = some Role.mafia ∨ role = some Role.godfather then
    let votes := mapInsert g.nightActions.mafiaVotes playerID targetID
    let target := resolveMafiaTarget g.roles votes g.nightActions.mafiaTarget
    { g with nightActions :=
      { g.nightActions with mafiaVotes := votes, mafiaTarget := target } }
  else if role = some Role.doctor then
    { g with nightActions := { g.nightActions with doctorTarget := targetID } }
  else
    { g with nightActions := { g.nightActions with detectiveTarget := targetID } }

/-- `Game.SubmitNightAction` from game.go: phase, liveness and
role-capability checks; a non-empty target must be a live player,
mafia/godfather cannot target team Mafia, the detective cannot target
themselves (the doctor may); an empty target skips target validation;
then the role-specific recording. -/
def Game.submitNightAction (g : Game) (playerID targetID : String) :
    Except DomainError Game :=
  if g.phase ≠ GamePhase.night then .error .invalidPhase
  else
    match g.room.getPlayer playerID with
    | none => .error .playerNotFound
    | some player =>
      if player.status ≠ PlayerStatus.alive then .error .playerDead
      else if ¬ canActOfLookup (g.roleOf playerID) then .error .invalidPhase
      else if targetID = "" then
        .ok (g.recordNightAction (g.roleOf playerID) playerID targetID)
      else
        match g.room.getPlayer targetID with
        | none => .error .invalidTarget
        | some target =>
          if target.status ≠ PlayerStatus.alive then .error .invalidTarget
          else if (g.roleOf playerID = some Role.mafia ∨
                   g.roleOf playerID = some Role.godfather) ∧
                  teamOfLookup (g.roleOf targetID) = Team.mafia then
            .error .mafiaTargetMafia
          else if g.roleOf playerID = some Role.detective ∧ targetID = playerID then
            .error .cannotTargetSelf
          else .ok (g.recordNightAction (g.roleOf playerID) playerID targetID)

/-- `Game.AllNightActionsComplete` from game.go: every live player
whose role can act at night has acted — for mafia/godfather mere
*presence* of their key in `MafiaVotes` counts (also with an empty
target), while doctor and detective count only when their stored
target is non-empty. -/
def Game.allNightActionsComplete (g : Game) : Bool :=
  g.room.players.all (fun p =>
    if p.status ≠ PlayerStatus.alive then true
    else
      match g.roleOf p.id with
      | some Role.mafia => (g.nightActions.mafiaVotes.any (fun kv => kv.1 = p.id))
      | some Role.godfather => (g.nightActions.mafiaVotes.any (fun kv => kv.1 = p.id))
      | some Role.doctor => g.nightActions.doctorTarget ≠ ""
      | some Role.detective => g.nightActions.detectiveTarget ≠ ""
      | _ => true)

/-- `Game.ResolveNight` from game.go: enters `night_result`; the kill
is processed only when a mafia target exists **and** this is not the
first night, where "first night" is `LastDayResult == nil`; a kill
matching the doctor target sets `WasSaved`, otherwise the target dies;
the detective investigation always runs and reports `IsMafia` as
role-equals-`mafia` (the godfather reads as innocent). -/
def Game.resolveNight (g : Game) : NightResult × Game :=
  let isFirstNight := g.lastDayResult = none
  let mafiaTarget := g.nightActions.mafiaTarget
  let doctorTarget := g.nightActions.doctorTarget
  let base : NightResult := ⟨"", "", false, none⟩
  let (result1, room1) :=
    if mafiaTarget ≠ "" ∧ ¬ isFirstNight then
      if mafiaTarget = doctorTarget then
        ({ base with wasSaved := true }, g.room)
      else
        match g.room.getPlayer mafiaTarget with
        | some player =>
          ({ base with killedID := mafiaTarget, killedNickname := player.nickname },
           { g.room with players := g.room.players.map (fun p =>
              if p.id = mafiaTarget then { p with status := .dead } else p) })
        | none => (base, g.room)
    else (base, g.room)
  let result2 :=
    if g.nightActions.detectiveTarget ≠ "" then
      match g.room.getPlayer g.nightActions.detectiveTarget with
      | some target =>
        { result1 with detectiveResult := some ⟨g.nightActions.detectiveTarget,
            target.nickname,
            g.roleOf g.nightActions.detectiveTarget = some Role.mafia⟩ }
      | none => result1
    else result1
  (result2,
   { g with phase := .nightResult, room := room1, lastNightResult := some result2 })

/-- `Game.StartDay`: enter day phase and reset `DayVotes`
(`PhaseEndTime` elided). -/
def Game.startDay (g : Game) : Game :=
  { g with phase := .day, dayVotes := ⟨[], []⟩ }

/-- The recording block at the end of `Game.SubmitDayVote`: the vote
and the submitted flag are stored with Go map-assignment semantics
(the `VotedTime` timestamp is write-only in the source and elided). -/
def Game.recordDayVote (g : Game) (voterID targetID : String) : Game :=
  { g with dayVotes :=
    { votes := mapInsert g.dayVotes.votes voterID targetID
      submitted := mapInsert g.dayVotes.submitted voterID true } }

/-- `Game.SubmitDayVote` from game.go: phase and liveness checks; a
non-empty target must be a live player distinct from the voter (an
empty target is a skip vote and passes); the vote is then recorded,
overwriting any earlier vote. -/
def Game.submitDayVote (g : Game) (voterID targetID : String) :
    Except DomainError Game :=
  if g.phase ≠ GamePhase.day then .error .invalidPhase
  else
    match g.room.getPlayer voterID with
    | none => .error .playerNotFound
    | some voter =>
      if voter.status ≠ PlayerStatus.alive then .error .playerDead
      else if targetID = "" then .ok (g.recordDayVote voterID targetID)
      else
        match g.room.getPlayer targetID with
        | none => .error .invalidTarget
        | some target =>
          if target.status ≠ PlayerStatus.alive then .error .invalidTarget
          else if targetID = voterID then .error .cannotTargetSelf
          else .ok (g.recordDayVote voterID targetID)

/-- `Game.AllDayVotesComplete`: every live player has a key in the
votes map. -/
def Game.allDayVotesComplete (g : Game) : Bool :=
  g.room.players.all (fun p =>
    if p.status ≠ PlayerStatus.alive then true
    else g.dayVotes.votes.any (fun kv => kv.1 = p.id))

/-- The `mafiaAlive` counter of `CheckWinCondition`: live players whose
role is on team Mafia (roles looked up in `Roles`; a missing key is the
zero role, town). -/
def Game.mafiaAliveCount (g : Game) : Nat :=
  (g.room.players.filter (fun p =>
    p.status = PlayerStatus.alive ∧ teamOfLookup (g.roleOf p.id) = Team.mafia)).length

/-- The `townAlive` counter of `CheckWinCondition`. -/
def Game.townAliveCount (g : Game) : Nat :=
  (g.room.players.filter (fun p =>
    p.status = PlayerStatus.alive ∧ teamOfLookup (g.roleOf p.id) = Team.town)).length

/-- `Game.CheckWinCondition` from game.go: mafia wins when
`mafiaAlive ≥ townAlive`, else town wins when `mafiaAlive == 0`, else
the game continues. Note the source checks the mafia condition FIRST. -/
def Game.checkWinCondition (g : Game) : Bool × Option Team :=
  if g.mafiaAliveCount ≥ g.townAliveCount then (true, some Team.mafia)
  else if g.mafiaAliveCount = 0 then (true, some Team.town)
  else (false, none)

/-- `Game.GetVoteDetails` from game.go: a copy of the full
voter-to-target map, plus the list of voters whose `Submitted` flag is
true. -/
def Game.getVoteDetails (g : Game) : List (String × String) × List String :=
  (g.dayVotes.votes,
   (g.dayVotes.submitted.filter (fun kv => kv.2)).map (fun kv => kv.1))

/-! ## Game service (domain/service, game service file)

The service wraps the entity operations, emits events to the router
(which broadcasts them to the room), and performs the early-resolution
check after each accepted submission. Timers and the event *transport*
are concurrency and are not part of the pure embedding; what is
embedded is the event **data** the service hands to the router and the
completeness flag that decides whether the phase resolves early. -/

/-- The payload of the `vote_update` event built by
`GameService.SubmitDayVote`: the full voter-to-target map and the
submitted-voter list, both from `GetVoteDetails`. -/
structure VoteUpdateEvent where
  votes : List (String × String)
  submitted : List String
deriving DecidableEq, Repr

/-- `GameService.SubmitDayVote`: submit to the entity; on success emit
a `vote_update` event with the detailed vote information and report
whether all day votes are now in (in the source this flag triggers
`cancelPhaseTimer` + `resolveDay` immediately). -/
def submitDayVoteService (g : Game) (voterID targetID : String) :
    Except DomainError (Game × VoteUpdateEvent × Bool) :=
  match g.submitDayVote voterID targetID with
  | .error e => .error e
  | .ok g1 =>
    let d := g1.getVoteDetails
    .ok (g1, ⟨d.1, d.2⟩, g1.allDayVotesComplete)

/-- `GameService.SubmitNightAction` (state part): submit to the entity;
on success report whether all night actions are now complete (in the
source this flag triggers `cancelPhaseTimer` + `resolveNight`
immediately; otherwise the night ends only when the phase timer
expires). The mafia-vote notification events are elided. -/
def submitNightActionService (g : Game) (playerID targetID : String) :
    Except DomainError (Game × Bool) :=
  match g.submitNightAction playerID targetID with
  | .error e => .error e
  | .ok g1 => .ok (g1, g1.allNightActionsComplete)

/-! ## Room service disconnection bookkeeping (domain/service, room
service file) -/

/-- `ReconnectTimeout` in seconds. -/
def ReconnectTimeout : Nat := 60

/-- `DisconnectedPlayer` from the room service (the `time.Timer` handle
is concurrency and is elided; `ExpiresAt` is kept as seconds). -/
structure DisconnectedPlayer where
  playerID : String
  roomCode : String
  expiresAt : Nat
deriving DecidableEq, Repr

/-- `RoomService.MarkPlayerDisconnected`: only effective when the room
exists, the player exists and `room.State == playing`; then the player
is marked disconnected and an entry with
`ExpiresAt = now + ReconnectTimeout` is stored under the player id.
Returns the flag the source returns plus the updated room and
disconnected map. -/
def markPlayerDisconnected (room : Room) (disconnected : List DisconnectedPlayer)
    (playerID : String) (now : Nat) :
    Bool × Room × List DisconnectedPlayer :=
  match room.getPlayer playerID with
  | none => (false, room, disconnected)
  | some _ =>
    if room.state ≠ RoomState.playing then (false, room, disconnected)
    else
      (true,
       { room with players := room.players.map (fun p =>
          if p.id = playerID then { p with isConnected := false } else p) },
       disconnected ++ [⟨playerID, room.code, now + ReconnectTimeout⟩])

/-- `RoomService.CanReconnect`: look the player up in the disconnected
map; return the record unless `time.Now().After(ExpiresAt)` — note
`After` is **strict**, so at `now = ExpiresAt` the record is still
returned. -/
def canReconnect (disconnected : List DisconnectedPlayer)
    (playerID : String) (now : Nat) : Option DisconnectedPlayer :=
  match disconnected.find? (fun dp => dp.playerID = playerID) with
  | none => none
  | some dp => if now > dp.expiresAt then none else some dp

/-! ## Router error mapping (adapter/ws/router.go, handleDayVote) -/

/-- The error-code switch of `Router.handleDayVote`: the wire code sent
to the client for each domain error (`vote_failed` is the default
branch). -/
def dayVoteErrorCode : DomainError → String
| .invalidPhase => "invalid_phase"
| .playerDead => "player_dead"
| .invalidTarget => "invalid_target"
| .cannotTargetSelf => "invalid_target"
| _ => "vote_failed"

/-! ## Voice routing derivation (adapter/sfu, CalculateRouting) -/

/-- `GamePhase` of the SFU package. -/
inductive VoicePhase where
| lobby
| night
| day
| gameOver
deriving DecidableEq, Repr

/-- `PlayerInfo` from the SFU package (its `Team` is the same
town/mafia enumeration as the entity's). -/
structure PlayerInfo where
  id : String
  team : Team
  isAlive : Bool
deriving DecidableEq, Repr, Inhabited

/-- `PlayerVoiceState` (the routing-relevant fields). -/
structure PlayerVoiceState where
  id : String
  team : Team
  isAlive : Bool
  canSpeak : Bool
  canHear : List String
deriving DecidableEq, Repr, Inhabited

/-- `aliveMafia` as collected by `CalculateRouting`. -/
def aliveMafiaIDs (players : List PlayerInfo) : List String :=
  (players.filter (fun p => p.isAlive ∧ p.team = Team.mafia)).map (fun p => p.id)

/-- `allAlive` as collected by `CalculateRouting`. -/
def allAliveIDs (players : List PlayerInfo) : List String :=
  (players.filter (fun p => p.isAlive)).map (fun p => p.id)

/-- `allPlayers` as collected by `CalculateRouting`. -/
def allPlayerIDs (players : List PlayerInfo) : List String :=
  players.map (fun p => p.id)

/-- The per-player `switch` body of `CalculateRouting`. -/
def routingFor (phase : VoicePhase) (players : List PlayerInfo)
    (p : PlayerInfo) : PlayerVoiceState :=
  match phase with
  | .lobby => ⟨p.id, p.team, p.isAlive, true, allPlayerIDs players⟩
  | .night =>
    if ¬ p.isAlive then ⟨p.id, p.team, p.isAlive, false, []⟩
    else if p.team = Team.mafia then
      ⟨p.id, p.team, p.isAlive, true, aliveMafiaIDs players⟩
    else ⟨p.id, p.team, p.isAlive, false, []⟩
  | .day =>
    if ¬ p.isAlive then ⟨p.id, p.team, p.isAlive, false, allAliveIDs players⟩
    else ⟨p.id, p.team, p.isAlive, true, allAliveIDs players⟩
  | .gameOver => ⟨p.id, p.team, p.isAlive, true, allPlayerIDs players⟩

/-- `CalculateRouting`: one voice state per input player (the Go result
map is keyed by player id; the embedding keeps the input order). -/
def calculateRouting (phase : VoicePhase) (players : List PlayerInfo) :
    List PlayerVoiceState :=
  players.map (routingFor phase players)

/-! ## Definitions written from the specification's words

These two definitions deliberately follow the *spec*, not the source;
they exist to be compared with the source-derived functions above. -/

/-- The win rule as the specification states it: Town wins if
`mafia_alive == 0`, else Mafia wins if `mafia_alive ≥ town_alive`,
else continue — with the stated edge case that at 0 players alive
Mafia wins. -/
def claimWinOutcome (mafiaAlive townAlive : Nat) : Bool × Option Team :=
  if mafiaAlive = 0 then
    if townAlive = 0 then (true, some Team.mafia)
    else (true, some Team.town)
  else if mafiaAlive ≥ townAlive then (true, some Team.mafia)
  else (false, none)

/-- The collective mafia target as the specification states it: a
non-empty godfather vote wins outright; otherwise the target with the
most votes wins and a tie goes to the target whose first vote arrived
earliest (the vote list is in arrival order, so `distinctTargets`
enumerates targets by earliest first vote). -/
def claimMafiaTarget (roles : List (String × Role))
    (votes : List (String × String)) : String :=
  match votes.find? (fun kv =>
      kv.2 ≠ "" ∧ lookupAssoc roles kv.1 = some Role.godfather) with
  | some kv => kv.2
  | none =>
    let ts := distinctTargets votes
    let best := ts.foldl (fun acc t => max acc (voteCount votes t)) 0
    (ts.find? (fun t => voteCount votes t = best)).getD ""

/-! ## Concrete fixtures used by counterexamples and witnesses -/

/-- A ready, connected, alive player. -/
def mkReady (id nick : String) (host : Bool) : Player :=
  { id := id, nickname := nick, isHost := host, isReady := true,
    isConnected := true, status := .alive }

/-- A six-player waiting room with default settings, all ready, `p1`
host — exactly what six successful joins plus six ready toggles
produce. -/
def sixRoom : Room :=
  { code := "ABCDEF", passwordHash := "", state := .waiting,
    settings := defaultSettings,
    players := [mkReady "p1" "n1" true, mkReady "p2" "n2" false,
                mkReady "p3" "n3" false, mkReady "p4" "n4" false,
                mkReady "p5" "n5" false, mkReady "p6" "n6" false],
    playerOrder := ["p1", "p2", "p3", "p4", "p5", "p6"] }

/-- The game started from `sixRoom` with the identity shuffle: roles in
order are mafia, mafia, doctor, detective, villager, villager for
`p1..p6`. -/
def startedGame : Game :=
  (startGame sixRoom "p1" (fun l => l)).toOption.getD default

/-- `startedGame` after the service's first `transitionToNight`. -/
def firstNight : Game := transitionToNight startedGame

/-- `firstNight` after the mafia `p1` targets `p4`, the doctor `p3`
protects `p5` (not the mafia target), and the detective `p4`
investigates the mafioso `p1`. -/
def firstNightActed : Game :=
  ((((firstNight.submitNightAction "p1" "p4").toOption.getD
       default).submitNightAction "p3" "p5").toOption.getD
         default).submitNightAction "p4" "p1" |>.toOption.getD default

/-- `sixRoom` once playing (the state `start_game` leaves it in). -/
def playingRoom : Room := { sixRoom with state := .playing }

/-- `sixRoom` after its host `p1` joins twice: the second
`Room.AddPlayer` call with the same id (reachable because the router
does not check that a joining client is in no room) overwrites the map
entry. -/
def dupJoinRoom1 : Room :=
  ((newRoom "ABCDEF" "").addPlayer (newPlayer "p1" "alice" false)).toOption.getD default

/-- `dupJoinRoom1` after `p1` joins again under a different nickname. -/
def dupJoinRoom2 : Room :=
  (dupJoinRoom1.addPlayer (newPlayer "p1" "bob" false)).toOption.getD default

/-- `startedGame` moved to the day phase (as `transitionToDay` does via
`Game.StartDay`). -/
def dayGame : Game := Game.startDay startedGame

/-- The concrete result of an accepted day vote in `dayGame`. -/
def dayVoteResult : Game × VoteUpdateEvent × Bool :=
  (submitDayVoteService dayGame "p2" "p5").toOption.getD
    (default, ⟨[], []⟩, false)

/-! ## Helper lemmas -/

theorem maxLoop_spec (f : String → Nat) (l : List String) (acc : Nat × String) :
    acc.1 ≤ (maxLoop f l acc).1 ∧
    (∀ t ∈ l, f t ≤ (maxLoop f l acc).1) ∧
    (maxLoop f l acc = acc ∨
      ((maxLoop f l acc).2 ∈ l ∧ f (maxLoop f l acc).2 = (maxLoop f l acc).1)) := by
  induction l generalizing acc with
  | nil => simp [maxLoop]
  | cons hd tl ih =>
    simp only [maxLoop]
    by_cases h : f hd > acc.1
    · rw [if_pos h]
      obtain ⟨h1, h2, h3⟩ := ih (f hd, hd)
      refine ⟨le_trans (le_of_lt h) h1, ?_, ?_⟩
      · intro t ht
        rcases List.mem_cons.mp ht with rfl | ht1
        · exact h1
        · exact h2 t ht1
      · rcases h3 with h3 | h3
        · right
          rw [h3]
          exact ⟨List.mem_cons_self _ _, rfl⟩
        · right
          exact ⟨List.mem_cons_of_mem _ h3.1, h3.2⟩
    · rw [if_neg h]
      obtain ⟨h1, h2, h3⟩ := ih acc
      refine ⟨h1, ?_, ?_⟩
      · intro t ht
        rcases List.mem_cons.mp ht with rfl | ht1
        · exact le_trans (Nat.le_of_not_lt h) h1
        · exact h2 t ht1
      · rcases h3 with h3 | h3
        · exact Or.inl h3
        · exact Or.inr ⟨List.mem_cons_of_mem _ h3.1, h3.2⟩

theorem mem_distinctTargets (votes : List (String × String)) (t : String) :
    t ∈ distinctTargets votes ↔ t ≠ "" ∧ ∃ kv ∈ votes, kv.2 = t := by
  unfold distinctTargets
  rw [List.mem_dedup]
  simp only [List.mem_map, List.mem_filter, decide_eq_true_eq]
  constructor
  · rintro ⟨kv, ⟨hkv, hne⟩, rfl⟩
    exact ⟨hne, kv, hkv, rfl⟩
  · rintro ⟨hne, kv, hkv, rfl⟩
    exact ⟨kv, ⟨hkv, hne⟩, rfl⟩

theorem voteCount_pos_iff (votes : List (String × String)) (t : String) :
    0 < voteCount votes t ↔ t ∈ distinctTargets votes := by
  unfold voteCount
  by_cases ht : t = ""
  · rw [if_pos ht, mem_distinctTargets]
    simp [ht]
  · rw [if_neg ht, mem_distinctTargets]
    rw [List.length_pos_iff_exists_mem]
    simp only [List.mem_filter, decide_eq_true_eq]
    constructor
    · rintro ⟨kv, hkv, hv⟩
      exact ⟨ht, kv, hkv, hv⟩
    · rintro ⟨_, kv, hkv, hv⟩
      exact ⟨kv, hkv, hv⟩

theorem find?_map_replace {β : Type} (m : List (String × β)) (k : String) (v : β)
    (h : m.any (fun kv => kv.1 = k) = true) :
    (m.map (fun kv => if kv.1 = k then (k, v) else kv)).find?
      (fun kv => kv.1 = k) = some (k, v) := by
  induction m with
  | nil => simp at h
  | cons hd tl ih =>
    by_cases hk : hd.1 = k
    · simp [List.find?, hk]
    · have h1 : tl.any (fun kv => kv.1 = k) = true := by
        simpa [List.any_cons, hk] using h
      simpa [List.find?, hk] using ih h1

theorem find?_append_not_any {β : Type} (m : List (String × β)) (k : String) (v : β)
    (h : m.any (fun kv => kv.1 = k) = false) :
    (m ++ [(k, v)]).find? (fun kv => kv.1 = k) = some (k, v) := by
  induction m with
  | nil => simp [List.find?]
  | cons hd tl ih =>
    rw [List.any_cons, Bool.or_eq_false_iff] at h
    have hk : ¬ hd.1 = k := of_decide_eq_false h.1
    simpa [List.find?, hk] using ih h.2

theorem find?_mapInsert {β : Type} (m : List (String × β)) (k : String) (v : β) :
    (mapInsert m k v).find? (fun kv => kv.1 = k) = some (k, v) := by
  unfold mapInsert
  by_cases h : m.any (fun kv => kv.1 = k)
  · rw [if_pos h]
    exact find?_map_replace m k v h
  · rw [if_neg h]
    exact find?_append_not_any m k v (Bool.eq_false_iff.mpr h)

theorem lookupAssoc_mapInsert {β : Type} (m : List (String × β)) (k : String) (v : β) :
    lookupAssoc (mapInsert m k v) k = some v := by
  unfold lookupAssoc
  rw [find?_mapInsert]
  rfl

theorem mem_mapInsert {β : Type} (m : List (String × β)) (k : String) (v : β) :
    (k, v) ∈ mapInsert m k v :=
  List.mem_of_find?_eq_some (find?_mapInsert m k v)

theorem mem_submittedList (sub : List (String × Bool)) (w : String) :
    w ∈ (sub.filter (fun kv => kv.2)).map (fun kv => kv.1) ↔ (w, true) ∈ sub := by
  simp only [List.mem_map, List.mem_filter]
  constructor
  · rintro ⟨⟨a, b⟩, ⟨hmem, hb⟩, rfl⟩
    cases b
    · simp at hb
    · exact hmem
  · intro hmem
    exact ⟨(w, true), ⟨hmem, rfl⟩, rfl⟩

/-- On success, the entity `SubmitDayVote` records the vote and the
submitted flag with Go map-assignment semantics, and touches nothing
else. -/
theorem submitDayVote_ok (g : Game) (v t : String) (g2 : Game)
    (h : g.submitDayVote v t = .ok g2) :
    g2.dayVotes.votes = mapInsert g.dayVotes.votes v t ∧
    g2.dayVotes.submitted = mapInsert g.dayVotes.submitted v true := by
  unfold Game.submitDayVote at h
  have hrec : g.recordDayVote v t = g2 →
      g2.dayVotes.votes = mapInsert g.dayVotes.votes v t ∧
      g2.dayVotes.submitted = mapInsert g.dayVotes.submitted v true := by
    intro he
    subst he
    exact ⟨rfl, rfl⟩
  split at h
  · exact Except.noConfusion h
  · split at h
    · exact Except.noConfusion h
    · split at h
      · exact Except.noConfusion h
      · split at h
        · injection h with h
          exact hrec h
        · split at h
          · exact Except.noConfusion h
          · split at h
            · exact Except.noConfusion h
            · split at h
              · exact Except.noConfusion h
              · injection h with h
                exact hrec h

/-- The per-player completeness test of `AllNightActionsComplete`,
characterised: live mafia and godfathers need only a *key* in
`MafiaVotes`, live doctor and detective need a non-empty stored
target. -/
theorem allNightComplete_iff (g : Game) :
    g.allNightActionsComplete = true ↔
      ∀ p ∈ g.room.players, p.status = PlayerStatus.alive →
        ((g.roleOf p.id = some Role.mafia ∨ g.roleOf p.id = some Role.godfather) →
          g.nightActions.mafiaVotes.any (fun kv => kv.1 = p.id) = true) ∧
        (g.roleOf p.id = some Role.doctor → g.nightActions.doctorTarget ≠ "") ∧
        (g.roleOf p.id = some Role.detective → g.nightActions.detectiveTarget ≠ "") := by
  unfold Game.allNightActionsComplete
  rw [List.all_eq_true]
  constructor
  · intro h p hp hal
    have hb := h p hp
    rw [if_neg (by simp [hal])] at hb
    refine ⟨?_, ?_, ?_⟩
    · rintro (hr | hr) <;> rw [hr] at hb <;> exact hb
    · intro hr
      rw [hr] at hb
      exact of_decide_eq_true hb
    · intro hr
      rw [hr] at hb
      exact of_decide_eq_true hb
  · intro h p hp
    by_cases hal : p.status = PlayerStatus.alive
    · rw [if_neg (by simp [hal])]
      obtain ⟨h1, h2, h3⟩ := h p hp hal
      rcases hro : g.roleOf p.id with _ | r
      · simp [hro]
      · cases r with
        | villager => simp [hro]
        | mafia => exact h1 (Or.inl hro)
        | godfather => exact h1 (Or.inr hro)
        | doctor => exact decide_eq_true (h2 hro)
        | detective => exact decide_eq_true (h3 hro)
    · rw [if_pos hal]

/-- Submitting an *empty* night action: for a live, night-capable
player the target validation is skipped entirely and the action is
recorded. -/
theorem submitNightAction_empty_ok (g : Game) (pid : String) (p : Player)
    (hphase : g.phase = GamePhase.night)
    (hfind : g.room.getPlayer pid = some p)
    (hal : p.status = PlayerStatus.alive)
    (hcan : canActOfLookup (g.roleOf pid) = true) :
    g.submitNightAction pid "" = .ok (g.recordNightAction (g.roleOf pid) pid "") := by
  unfold Game.submitNightAction
  rw [if_neg (by simp [hphase])]
  simp only [hfind]
  rw [if_neg (by simp [hal]), if_neg (by simp [hcan])]
  simp

theorem mem_aliveMafiaIDs (players : List PlayerInfo) (x : String) :
    x ∈ aliveMafiaIDs players ↔
      ∃ q ∈ players, q.id = x ∧ q.isAlive = true ∧ q.team = Team.mafia := by
  unfold aliveMafiaIDs
  simp only [List.mem_map, List.mem_filter, decide_eq_true_eq]
  constructor
  · rintro ⟨q, ⟨hq, hqa, hqt⟩, rfl⟩
    exact ⟨q, hq, rfl, hqa, hqt⟩
  · rintro ⟨q, hq, rfl, hqa, hqt⟩
    exact ⟨q, ⟨hq, hqa, hqt⟩, rfl⟩

theorem mem_allAliveIDs (players : List PlayerInfo) (x : String) :
    x ∈ allAliveIDs players ↔ ∃ q ∈ players, q.id = x ∧ q.isAlive = true := by
  unfold allAliveIDs
  simp only [List.mem_map, List.mem_filter, decide_eq_true_eq]
  constructor
  · rintro ⟨q, ⟨hq, hqa⟩, rfl⟩
    exact ⟨q, hq, rfl, hqa⟩
  · rintro ⟨q, hq, rfl, hqa⟩
    exact ⟨q, ⟨hq, hqa⟩, rfl⟩

theorem mem_allPlayerIDs (players : List PlayerInfo) (x : String) :
    x ∈ allPlayerIDs players ↔ ∃ q ∈ players, q.id = x := by
  unfold allPlayerIDs
  simp [List.mem_map]

/-! ## Claim theorems -/

/-- C1 counterexample: `start_game` on a fully reachable room — six
players, all ready, `p1` host, **default settings** — succeeds although
the settings sum to 7 ≠ 6 players, refuting the claim that success
requires the role counts to sum to the player count. -/
theorem startGame_counterexample :
    (startGame sixRoom "p1" (fun l => l)).toOption.isSome = true ∧
    sixRoom.settings.totalPlayers = 7 ∧
    sixRoom.playerCount = 6 := by decide

/-- C1 amended: `start_game` succeeds **iff** the caller is the host,
the player count is at least `MinPlayers` and every player is ready;
neither the `MaxPlayers` upper bound (enforced at join time) nor the
settings are checked at start. -/
theorem startGame_success_iff (room : Room) (hostID : String)
    (shuffle : List Role → List Role) :
    (startGame room hostID shuffle).toOption.isSome = true ↔
      ((∃ h, room.getHost = some h ∧ h.id = hostID) ∧
       MinPlayers ≤ room.playerCount ∧ room.allReady = true) := by
  unfold startGame newGame
  cases hg : room.getHost with
  | none =>
    simp only [hg]
    constructor
    · intro hx
      simp [Except.toOption] at hx
    · rintro ⟨⟨h2, hg2, _⟩, _, _⟩
      exact Option.noConfusion hg2
  | some host =>
    simp only [hg]
    by_cases hh : host.id = hostID
    · rw [if_neg (by simp [hh])]
      by_cases hc : room.playerCount < MinPlayers
      · rw [if_pos hc]
        constructor
        · intro hx
          simp [Except.toOption] at hx
        · rintro ⟨_, hle, _⟩
          omega
      · by_cases hr : room.allReady
        · rw [if_neg hc, if_neg (by simpa using hr)]
          constructor
          · intro _
            exact ⟨⟨host, rfl, hh⟩, Nat.le_of_not_lt hc, hr⟩
          · intro _
            rfl
        · rw [if_neg hc, if_pos hr]
          constructor
          · intro hx
            simp [Except.toOption] at hx
          · rintro ⟨_, _, hr2⟩
            exact absurd hr2 hr
    · rw [if_pos (by simp [hh])]
      constructor
      · intro hx
        simp [Except.toOption] at hx
      · rintro ⟨⟨h2, hg2, hid⟩, _, _⟩
        injection hg2 with hg2
        subst hg2
        exact absurd hid hh

/-- C2 counterexample: two mafiosi, no godfather, a 1-1 tie between
`A` (first vote, earliest arrival) and `B`. Under the admissible
map-iteration order `["B", "A"]` the code resolves the target to `B`,
while the claimed earliest-arrival tiebreak prescribes `A`; under the
order `["A", "B"]` the code yields `A` — the outcome depends on the
unspecified iteration order, so the claimed deterministic rule is not
what the code computes. -/
theorem mafiaTarget_tiebreak_counterexample :
    resolveMafiaTargetWith [("m1", Role.mafia), ("m2", Role.mafia)]
        [("m1", "A"), ("m2", "B")] ["B", "A"] "" = "B" ∧
    resolveMafiaTargetWith [("m1", Role.mafia), ("m2", Role.mafia)]
        [("m1", "A"), ("m2", "B")] ["A", "B"] "" = "A" ∧
    claimMafiaTarget [("m1", Role.mafia), ("m2", Role.mafia)]
        [("m1", "A"), ("m2", "B")] = "A" ∧
    List.Perm ["B", "A"] (distinctTargets [("m1", "A"), ("m2", "B")]) ∧
    voteCount [("m1", "A"), ("m2", "B")] "A" =
      voteCount [("m1", "A"), ("m2", "B")] "B" := by decide

/-- C2 amended: a non-empty godfather vote always wins; otherwise, for
*every* admissible iteration order of the vote-count map, the resolved
target is one with the maximum number of votes — but on a tie the
winner is whichever tied target the iteration happens to visit first,
not the earliest-arrival one. -/
theorem resolveMafiaTarget_amended (roles : List (String × Role))
    (votes : List (String × String)) (countsIter : List String) (prev : String)
    (hperm : List.Perm countsIter (distinctTargets votes)) :
    (godfatherVote roles votes ≠ "" →
      resolveMafiaTargetWith roles votes countsIter prev = godfatherVote roles votes) ∧
    (godfatherVote roles votes = "" →
      (∀ t, voteCount votes t ≤
        voteCount votes (resolveMafiaTargetWith roles votes countsIter prev)) ∧
      (countsIter ≠ [] →
        resolveMafiaTargetWith roles votes countsIter prev ∈ countsIter)) := by
  constructor
  · intro h
    unfold resolveMafiaTargetWith
    rw [if_pos h]
  · intro h
    unfold resolveMafiaTargetWith
    rw [if_neg (by simp [h])]
    obtain ⟨h1, h2, h3⟩ := maxLoop_spec (voteCount votes) countsIter (0, prev)
    constructor
    · intro t
      by_cases hct : 0 < voteCount votes t
      · have hmem : t ∈ countsIter :=
          hperm.mem_iff.mpr ((voteCount_pos_iff votes t).mp hct)
        have hle := h2 t hmem
        rcases h3 with h3 | h3
        · rw [h3] at hle
          omega
        · rw [h3.2]
          exact hle
      · have hz : voteCount votes t = 0 := by omega
        rw [hz]
        exact Nat.zero_le _
    · intro hne
      rcases h3 with h3 | h3
      · obtain ⟨t0, ht0⟩ := List.exists_mem_of_ne_nil countsIter hne
        have hpos : 0 < voteCount votes t0 :=
          (voteCount_pos_iff votes t0).mpr (hperm.mem_iff.mp ht0)
        have hle := h2 t0 ht0
        rw [h3] at hle
        omega
      · exact h3.1

/-- C2 witness: the godfather-override part applied at a concrete vote
map, and the maximality part applied at the tied counterexample map. -/
theorem resolveMafiaTarget_amended_w :
    resolveMafiaTargetWith [("gf", Role.godfather)] [("gf", "X")] ["X"] "" =
      godfatherVote [("gf", Role.godfather)] [("gf", "X")] ∧
    resolveMafiaTargetWith [("m1", Role.mafia), ("m2", Role.mafia)]
        [("m1", "A"), ("m2", "B")] ["B", "A"] "" ∈ ["B", "A"] := by
  constructor
  · exact (resolveMafiaTarget_amended [("gf", Role.godfather)] [("gf", "X")]
      ["X"] "" (by decide)).1 (by decide)
  · exact ((resolveMafiaTarget_amended [("m1", Role.mafia), ("m2", Role.mafia)]
      [("m1", "A"), ("m2", "B")] ["B", "A"] "" (by decide)).2 (by decide)).2 (by decide)

/-- C3: the win check of `CheckWinCondition` coincides, for every game
state, with the claimed rule — Town wins when no mafia is alive, else
Mafia wins when mafia at least match town, else play on, with Mafia
winning the 0-alive edge case. Although the source tests the mafia
condition first and the claim lists Town first, the two decision
procedures agree everywhere. -/
theorem checkWinCondition_matches_claim (g : Game) :
    g.checkWinCondition = claimWinOutcome g.mafiaAliveCount g.townAliveCount := by
  unfold Game.checkWinCondition claimWinOutcome
  split_ifs <;> first | rfl | (exfalso; omega)

/-- C4: evaluation at a concrete started six-player game. The round
counter is 1 at creation and the service increments it on *every*
night entry, so the first night runs with `round = 2` — the claimed
`round == 1` never occurs during a night — while the grace-round
behaviour itself holds: the first night's resolution (identified by
`LastDayResult == nil`) reports no kill and no save and changes no
status even though the mafia targeted `p4` and the doctor protected
only `p5`, and the detective's investigation of the mafioso `p1` still
runs and is reported. -/
theorem firstNight_round_and_grace_eval :
    (startGame sixRoom "p1" (fun l => l)).toOption.isSome = true ∧
    startedGame.round = 1 ∧
    firstNight.round = 2 ∧
    firstNight.phase = GamePhase.night ∧
    firstNight.lastDayResult = none ∧
    (firstNight.submitNightAction "p1" "p4").toOption.isSome = true ∧
    firstNightActed.nightActions.mafiaTarget = "p4" ∧
    firstNightActed.nightActions.doctorTarget = "p5" ∧
    (firstNightActed.resolveNight).1.killedID = "" ∧
    (firstNightActed.resolveNight).1.killedNickname = "" ∧
    (firstNightActed.resolveNight).1.wasSaved = false ∧
    ((firstNightActed.resolveNight).2.room.players.all
      (fun p => p.status = PlayerStatus.alive)) = true ∧
    (firstNightActed.resolveNight).1.detectiveResult =
      some ⟨"p1", "n1", true⟩ := by decide

/-- C5 counterexample: a player of a playing room disconnects at time
0, so the record expires at 60; a reconnect lookup at exactly
`T = 60 s` still returns the record (the source uses strict
`time.Now().After`), contradicting the claim that exactly-at-60 is
timed out. -/
theorem canReconnect_at_boundary_counterexample :
    playingRoom.state = RoomState.playing ∧
    (markPlayerDisconnected playingRoom [] "p3" 0).1 = true ∧
    (markPlayerDisconnected playingRoom [] "p3" 0).2.2 =
      [⟨"p3", "ABCDEF", ReconnectTimeout⟩] ∧
    canReconnect [⟨"p3", "ABCDEF", ReconnectTimeout⟩] "p3" ReconnectTimeout =
      some ⟨"p3", "ABCDEF", ReconnectTimeout⟩ := by decide

/-- C5 amended: a disconnect record is created only for a player of a
*playing* room, expiring 60 s later; `can_reconnect` returns the
record iff one exists and `now ≤ expires_at` — the window is
inclusive, so a reconnect at exactly `T = 60 s` is still allowed and
only strictly later attempts are timed out. -/
theorem canReconnect_amended (room : Room) (ds : List DisconnectedPlayer)
    (pid : String) (dnow tnow : Nat) :
    ((markPlayerDisconnected room ds pid dnow).1 = true →
      room.state = RoomState.playing ∧
      (markPlayerDisconnected room ds pid dnow).2.2 =
        ds ++ [⟨pid, room.code, dnow + ReconnectTimeout⟩]) ∧
    ((canReconnect ds pid tnow).isSome = true ↔
      ∃ dp, ds.find? (fun d => d.playerID = pid) = some dp ∧
        tnow ≤ dp.expiresAt) := by
  constructor
  · intro h
    unfold markPlayerDisconnected at h ⊢
    cases hp : room.getPlayer pid with
    | none =>
      simp [hp] at h
    | some q =>
      by_cases hs : room.state ≠ RoomState.playing
      · simp [hp, hs] at h
      · have hs2 := not_not.mp hs
        exact ⟨hs2, by simp [hp, hs2]⟩
  · cases hf : ds.find? (fun d => d.playerID = pid) with
    | none => simp [canReconnect, hf]
    | some dp =>
      unfold canReconnect
      simp only [hf]
      by_cases ht : tnow > dp.expiresAt
      · rw [if_pos ht]
        constructor
        · intro hx
          simp at hx
        · rintro ⟨dp2, hdp2, hle⟩
          injection hdp2 with hdp2
          subst hdp2
          omega
      · rw [if_neg ht]
        constructor
        · intro _
          exact ⟨dp, rfl, Nat.le_of_not_lt ht⟩
        · intro _
          rfl

/-- C5 witness: the amended theorem applied at the concrete playing
room and at a record expiring at 60 probed at 59. -/
theorem canReconnect_amended_w :
    (playingRoom.state = RoomState.playing ∧
      (markPlayerDisconnected playingRoom [] "p3" 0).2.2 =
        [] ++ [⟨"p3", playingRoom.code, 0 + ReconnectTimeout⟩]) ∧
    (canReconnect [⟨"p3", "ABCDEF", 60⟩] "p3" 59).isSome = true :=
  ⟨(canReconnect_amended playingRoom [] "p3" 0 59).1 (by decide),
   (canReconnect_amended playingRoom [⟨"p3", "ABCDEF", 60⟩] "p3" 0 59).2.mpr
     ⟨⟨"p3", "ABCDEF", 60⟩, by decide, by decide⟩⟩

/-- C6: every accepted day vote makes the service emit a `vote_update`
event whose payload is the *full* voter-to-target map of the updated
game — including the just-recorded vote — together with exactly the
set of voters whose submitted flag is set (the voter among them). -/
theorem dayVote_vote_update_detail (g : Game) (v t : String)
    (g1 : Game) (ev : VoteUpdateEvent) (b : Bool)
    (h : submitDayVoteService g v t = .ok (g1, ev, b)) :
    ev.votes = g1.dayVotes.votes ∧
    lookupAssoc ev.votes v = some t ∧
    v ∈ ev.submitted ∧
    (∀ w, w ∈ ev.submitted ↔ (w, true) ∈ g1.dayVotes.submitted) := by
  unfold submitDayVoteService at h
  cases he : g.submitDayVote v t with
  | error e =>
    rw [he] at h
    exact Except.noConfusion h
  | ok g2 =>
    rw [he] at h
    obtain ⟨hv, hs⟩ := submitDayVote_ok g v t g2 he
    simp only [Except.ok.injEq, Prod.mk.injEq] at h
    obtain ⟨h1, h2, h3⟩ := h
    subst h1
    subst h2
    refine ⟨rfl, ?_, ?_, ?_⟩
    · show lookupAssoc g2.dayVotes.votes v = some t
      rw [hv]
      exact lookupAssoc_mapInsert _ _ _
    · apply (mem_submittedList g2.dayVotes.submitted v).mpr
      rw [hs]
      exact mem_mapInsert _ _ _
    · intro w
      exact mem_submittedList g2.dayVotes.submitted w

/-- C6 witness: the theorem applied to the concrete accepted vote of
`p2` for `p5` in `dayGame`. -/
theorem dayVote_vote_update_detail_w :
    lookupAssoc dayVoteResult.2.1.votes "p2" = some "p5" ∧
    "p2" ∈ dayVoteResult.2.1.submitted := by
  have hh : submitDayVoteService dayGame "p2" "p5" =
      .ok (dayVoteResult.1, dayVoteResult.2.1, dayVoteResult.2.2) := rfl
  have h := dayVote_vote_update_detail dayGame "p2" "p5"
    dayVoteResult.1 dayVoteResult.2.1 dayVoteResult.2.2 hh
  exact ⟨h.2.1, h.2.2.1⟩

/-- C7: concrete evaluation of the host-invariant violation. A host
who joins their own room again under a fresh nickname (the router does
not enforce the spec's "in no room" precondition on `join_room`) is
overwritten by `AddPlayer` with `is_host = false`: the room stays
non-empty but has **zero** hosts, and `player_order` gains a duplicate
id. The host-succession and first-joiner clauses themselves behave as
claimed (`p1` leaving `sixRoom` promotes `p2` and exactly one host
remains). -/
theorem duplicate_join_host_eval :
    (((newRoom "ABCDEF" "").addPlayer (newPlayer "p1" "alice" false)).toOption.isSome
      = true) ∧
    dupJoinRoom1.players.countP (fun p => p.isHost) = 1 ∧
    ((dupJoinRoom1.addPlayer (newPlayer "p1" "bob" false)).toOption.isSome = true) ∧
    dupJoinRoom2.players.length = 1 ∧
    dupJoinRoom2.players.countP (fun p => p.isHost) = 0 ∧
    dupJoinRoom2.playerOrder = ["p1", "p1"] ∧
    (sixRoom.removePlayer "p1").2.1 = "p2" ∧
    ((sixRoom.removePlayer "p1").2.2.players.countP (fun p => p.isHost)) = 1 := by
  decide

/-- C8: the voice-routing derivation satisfies the spec table. Night:
an alive mafioso speaks and hears exactly the alive mafia, alive town
and the dead are muted and hear nobody. Day: the alive speak and hear
all alive, the dead are muted but hear all alive. Lobby and game over:
everyone speaks and hears everyone. -/
theorem voiceRouting_matches_table (players : List PlayerInfo)
    (p : PlayerInfo) (x : String) :
    (p.isAlive = true → p.team = Team.mafia →
      (routingFor VoicePhase.night players p).canSpeak = true ∧
      (x ∈ (routingFor VoicePhase.night players p).canHear ↔
        ∃ q ∈ players, q.id = x ∧ q.isAlive = true ∧ q.team = Team.mafia)) ∧
    (p.isAlive = true → p.team = Team.town →
      (routingFor VoicePhase.night players p).canSpeak = false ∧
      (routingFor VoicePhase.night players p).canHear = []) ∧
    (p.isAlive = false →
      (routingFor VoicePhase.night players p).canSpeak = false ∧
      (routingFor VoicePhase.night players p).canHear = []) ∧
    (p.isAlive = true →
      (routingFor VoicePhase.day players p).canSpeak = true ∧
      (x ∈ (routingFor VoicePhase.day players p).canHear ↔
        ∃ q ∈ players, q.id = x ∧ q.isAlive = true)) ∧
    (p.isAlive = false →
      (routingFor VoicePhase.day players p).canSpeak = false ∧
      (x ∈ (routingFor VoicePhase.day players p).canHear ↔
        ∃ q ∈ players, q.id = x ∧ q.isAlive = true)) ∧
    ((routingFor VoicePhase.lobby players p).canSpeak = true ∧
      (x ∈ (routingFor VoicePhase.lobby players p).canHear ↔
        ∃ q ∈ players, q.id = x)) ∧
    ((routingFor VoicePhase.gameOver players p).canSpeak = true ∧
      (x ∈ (routingFor VoicePhase.gameOver players p).canHear ↔
        ∃ q ∈ players, q.id = x)) := by
  refine ⟨?_, ?_, ?_, ?_, ?_, ?_, ?_⟩
  · intro ha ht
    simp only [routingFor]
    rw [if_neg (show ¬¬p.isAlive = true by simp [ha]), if_pos ht]
    exact ⟨rfl, mem_aliveMafiaIDs players x⟩
  · intro ha ht
    simp only [routingFor]
    rw [if_neg (show ¬¬p.isAlive = true by simp [ha]),
        if_neg (show ¬p.team = Team.mafia by simp [ht])]
    exact ⟨rfl, rfl⟩
  · intro ha
    simp only [routingFor]
    rw [if_pos (show ¬p.isAlive = true by simp [ha])]
    exact ⟨rfl, rfl⟩
  · intro ha
    simp only [routingFor]
    rw [if_neg (show ¬¬p.isAlive = true by simp [ha])]
    exact ⟨rfl, mem_allAliveIDs players x⟩
  · intro ha
    simp only [routingFor]
    rw [if_pos (show ¬p.isAlive = true by simp [ha])]
    exact ⟨rfl, mem_allAliveIDs players x⟩
  · exact ⟨rfl, mem_allPlayerIDs players x⟩
  · exact ⟨rfl, mem_allPlayerIDs players x⟩

/-- C8 witness: the table theorem applied at a concrete three-player
roster. -/
theorem voiceRouting_matches_table_w :
    (routingFor VoicePhase.night
      [⟨"m1", Team.mafia, true⟩, ⟨"t1", Team.town, true⟩, ⟨"d1", Team.town, false⟩]
      ⟨"m1", Team.mafia, true⟩).canSpeak = true ∧
    ("m1" ∈ (routingFor VoicePhase.night
      [⟨"m1", Team.mafia, true⟩, ⟨"t1", Team.town, true⟩, ⟨"d1", Team.town, false⟩]
      ⟨"m1", Team.mafia, true⟩).canHear) ∧
    (routingFor VoicePhase.night
      [⟨"m1", Team.mafia, true⟩, ⟨"t1", Team.town, true⟩, ⟨"d1", Team.town, false⟩]
      ⟨"t1", Team.town, true⟩).canHear = [] ∧
    (routingFor VoicePhase.day
      [⟨"m1", Team.mafia, true⟩, ⟨"t1", Team.town, true⟩, ⟨"d1", Team.town, false⟩]
      ⟨"d1", Team.town, false⟩).canSpeak = false := by
  have h1 := voiceRouting_matches_table
    [⟨"m1", Team.mafia, true⟩, ⟨"t1", Team.town, true⟩, ⟨"d1", Team.town, false⟩]
    ⟨"m1", Team.mafia, true⟩ "m1"
  have h2 := voiceRouting_matches_table
    [⟨"m1", Team.mafia, true⟩, ⟨"t1", Team.town, true⟩, ⟨"d1", Team.town, false⟩]
    ⟨"t1", Team.town, true⟩ "m1"
  have h3 := voiceRouting_matches_table
    [⟨"m1", Team.mafia, true⟩, ⟨"t1", Team.town, true⟩, ⟨"d1", Team.town, false⟩]
    ⟨"d1", Team.town, false⟩ "m1"
  refine ⟨(h1.1 rfl rfl).1, ?_, (h2.2.1 rfl rfl).2, (h3.2.2.2.2.1 rfl).1⟩
  exact (h1.1 rfl rfl).2.mpr
    ⟨⟨"m1", Team.mafia, true⟩, by simp, rfl, rfl, rfl⟩

/-- C9: a day vote whose target equals the voter is rejected with
`ErrCannotTargetSelf` (the entity returns before recording anything,
so the vote state is untouched), and `handleDayVote` surfaces this
error to the client as the wire code `invalid_target`. -/
theorem dayVote_self_rejected (g : Game) (v : String) (p : Player)
    (hphase : g.phase = GamePhase.day)
    (hfind : g.room.getPlayer v = some p)
    (halive : p.status = PlayerStatus.alive)
    (hne : v ≠ "") :
    g.submitDayVote v v = .error DomainError.cannotTargetSelf ∧
    dayVoteErrorCode DomainError.cannotTargetSelf = "invalid_target" := by
  refine ⟨?_, rfl⟩
  unfold Game.submitDayVote
  rw [if_neg (by simp [hphase])]
  simp only [hfind]
  rw [if_neg (by simp [halive]), if_neg hne]
  rw [if_neg (by simp [halive])]
  simp

/-- C9 witness: the self-vote of `p2` in the concrete day game. -/
theorem dayVote_self_rejected_w :
    dayGame.submitDayVote "p2" "p2" = .error DomainError.cannotTargetSelf ∧
    dayVoteErrorCode DomainError.cannotTargetSelf = "invalid_target" :=
  dayVote_self_rejected dayGame "p2" (mkReady "p2" "n2" false)
    (by decide) (by decide) (by decide) (by decide)

/-- C10: night-action completeness is asymmetric. The completeness
predicate holds iff every live mafia/godfather has a *key* in the vote
map (an empty target suffices) while a live doctor or detective counts
only with a non-empty stored target; consequently a live doctor who
submits an empty target is accepted but leaves the phase incomplete —
the service does not resolve early and the night ends only at timer
expiry — whereas a live mafioso submitting an empty target is recorded
as having acted. -/
theorem nightCompleteness_asymmetry (g : Game) :
    (g.allNightActionsComplete = true ↔
      ∀ p ∈ g.room.players, p.status = PlayerStatus.alive →
        ((g.roleOf p.id = some Role.mafia ∨ g.roleOf p.id = some Role.godfather) →
          g.nightActions.mafiaVotes.any (fun kv => kv.1 = p.id) = true) ∧
        (g.roleOf p.id = some Role.doctor → g.nightActions.doctorTarget ≠ "") ∧
        (g.roleOf p.id = some Role.detective → g.nightActions.detectiveTarget ≠ "")) ∧
    (∀ pid p, g.phase = GamePhase.night → g.room.getPlayer pid = some p →
      p.status = PlayerStatus.alive → g.roleOf pid = some Role.doctor →
      ∃ g1, submitNightActionService g pid "" = .ok (g1, false) ∧
        g1.nightActions.doctorTarget = "") ∧
    (∀ pid p, g.phase = GamePhase.night → g.room.getPlayer pid = some p →
      p.status = PlayerStatus.alive → g.roleOf pid = some Role.mafia →
      ∃ g1 b, submitNightActionService g pid "" = .ok (g1, b) ∧
        g1.nightActions.mafiaVotes.any (fun kv => kv.1 = pid) = true) := by
  refine ⟨allNightComplete_iff g, ?_, ?_⟩
  · intro pid p hphase hfind hal hrole
    have hcan : canActOfLookup (g.roleOf pid) = true := by
      rw [hrole]
      rfl
    have hsub := submitNightAction_empty_ok g pid p hphase hfind hal hcan
    have hrec : g.recordNightAction (g.roleOf pid) pid "" =
        { g with nightActions := { g.nightActions with doctorTarget := "" } } := by
      rw [hrole]
      unfold Game.recordNightAction
      rw [if_neg (by simp), if_pos rfl]
    refine ⟨{ g with nightActions := { g.nightActions with doctorTarget := "" } },
      ?_, rfl⟩
    unfold submitNightActionService
    rw [hsub, hrec]
    have hfind2 : g.room.players.find? (fun q => q.id = pid) = some p := hfind
    have hmem : p ∈ g.room.players := List.mem_of_find?_eq_some hfind2
    have hpid : p.id = pid := by simpa using List.find?_some hfind2
    have hfalse :
        Game.allNightActionsComplete
          { g with nightActions := { g.nightActions with doctorTarget := "" } }
          = false := by
      by_contra hx
      have hx2 :
          Game.allNightActionsComplete
            { g with nightActions := { g.nightActions with doctorTarget := "" } }
            = true := by
        revert hx
        cases Game.allNightActionsComplete
          { g with nightActions := { g.nightActions with doctorTarget := "" } } <;>
          simp
      have hchar := (allNightComplete_iff _).mp hx2 p hmem hal
      exact hchar.2.1 (by rw [hpid]; exact hrole) rfl
    simp [hfalse]
  · intro pid p hphase hfind hal hrole
    have hcan : canActOfLookup (g.roleOf pid) = true := by
      rw [hrole]
      rfl
    have hsub := submitNightAction_empty_ok g pid p hphase hfind hal hcan
    refine ⟨g.recordNightAction (g.roleOf pid) pid "",
      (g.recordNightAction (g.roleOf pid) pid "").allNightActionsComplete, ?_, ?_⟩
    · unfold submitNightActionService
      rw [hsub]
    · have hrec : g.recordNightAction (g.roleOf pid) pid "" =
          { g with nightActions :=
            { g.nightActions with
                mafiaVotes := mapInsert g.nightActions.mafiaVotes pid ""
                mafiaTarget := resolveMafiaTarget g.roles
                  (mapInsert g.nightActions.mafiaVotes pid "")
                  g.nightActions.mafiaTarget } } := by
        rw [hrole]
        unfold Game.recordNightAction
        rw [if_pos (Or.inl rfl)]
      rw [hrec]
      exact List.any_eq_true.mpr
        ⟨(pid, ""), mem_mapInsert _ _ _, by simp⟩

/-- C10 witness: the doctor `p3` of the concrete first night submits an
empty target — accepted, and early resolution is off. -/
theorem nightCompleteness_asymmetry_w :
    ∃ g1, submitNightActionService firstNight "p3" "" = .ok (g1, false) ∧
      g1.nightActions.doctorTarget = "" :=
  (nightCompleteness_asymmetry firstNight).2.1 "p3" (mkReady "p3" "n3" false)
    (by decide) (by decide) (by decide) (by decide)

end Mafia
